import Mathlib

/-
Verification of the Accredis compliance-management backend (src/backend/server.py)
against its natural-language specification.

The embedding below translates the relevant Python code into Lean:
* timestamps: `datetime.utcnow()` values are modelled by their ISO-8601 rendering
  (`isoformat()` strings), which is what the signature hash consumes; distinct
  instants render to distinct strings.  Each distinct `utcnow()` call site in a
  handler receives its own explicit time parameter, in source order.
* the MongoDB store is a record of lists (insertion order = natural order);
  `find_one` / `update_one` act on the first match, `find(...).sort(...,-1)` is a
  stable descending sort, `.to_list(100)` is `List.take 100`.
* fallible handlers return `Except HTTPException`; an `.error` result performs no
  store write (the Python handlers raise before any write in those paths).
* SHA-256 (`hashlib.sha256(...).hexdigest()`) is implemented executably below.
-/

namespace Accredis

/-! ## SHA-256 (hashlib.sha256(data.encode()).hexdigest()) -/

/-- Truncate to 32 bits. -/
def u32 (x : Nat) : Nat := x % 4294967296

/-- Right rotation on 32 bits. -/
def rotr (n x : Nat) : Nat := u32 ((x >>> n) ||| (x <<< (32 - n)))

def bsig0 (x : Nat) : Nat := (rotr 2 x) ^^^ (rotr 13 x) ^^^ (rotr 22 x)

def bsig1 (x : Nat) : Nat := (rotr 6 x) ^^^ (rotr 11 x) ^^^ (rotr 25 x)

def ssig0 (x : Nat) : Nat := (rotr 7 x) ^^^ (rotr 18 x) ^^^ (x >>> 3)

def ssig1 (x : Nat) : Nat := (rotr 17 x) ^^^ (rotr 19 x) ^^^ (x >>> 10)

/-- The 64 SHA-256 round constants. -/
def shaK : List Nat :=
  [1116352408, 1899447441, 3049323471, 3921009573, 961987163, 1508970993,
   2453635748, 2870763221, 3624381080, 310598401, 607225278, 1426881987,
   1925078388, 2162078206, 2614888103, 3248222580, 3835390401, 4022224774,
   264347078, 604807628, 770255983, 1249150122, 1555081692, 1996064986,
   2554220882, 2821834349, 2952996808, 3210313671, 3336571891, 3584528711,
   113926993, 338241895, 666307205, 773529912, 1294757372, 1396182291,
   1695183700, 1986661051, 2177026350, 2456956037, 2730485921, 2820302411,
   3259730800, 3345764771, 3516065817, 3600352804, 4094571909, 275423344,
   430227734, 506948616, 659060556, 883997877, 958139571, 1322822218,
   1537002063, 1747873779, 1955562222, 2024104815, 2227730452, 2361852424,
   2428436474, 2756734187, 3204031479, 3329325298]

/-- The SHA-256 initial hash value. -/
def shaH0 : List Nat :=
  [1779033703, 3144134277, 1013904242, 2773480762,
   1359893119, 2600822924, 528734635, 1541459225]

/-- UTF-8 encoding of one character (Python `str.encode()`). -/
def utf8Char (c : Char) : List Nat :=
  let n := c.toNat
  if n < 0x80 then [n]
  else if n < 0x800 then [0xc0 ||| (n >>> 6), 0x80 ||| (n &&& 0x3f)]
  else if n < 0x10000 then
    [0xe0 ||| (n >>> 12), 0x80 ||| ((n >>> 6) &&& 0x3f), 0x80 ||| (n &&& 0x3f)]
  else
    [0xf0 ||| (n >>> 18), 0x80 ||| ((n >>> 12) &&& 0x3f),
     0x80 ||| ((n >>> 6) &&& 0x3f), 0x80 ||| (n &&& 0x3f)]

/-- UTF-8 encoding of a string's characters. -/
def utf8 (s : List Char) : List Nat :=
  s.foldr (fun c acc => utf8Char c ++ acc) []

/-- Big-endian bytes of the 64-bit message bit length. -/
def lenBytes (len : Nat) : List Nat :=
  [56, 48, 40, 32, 24, 16, 8, 0].map (fun k => ((len * 8) >>> k) % 256)

/-- SHA-256 message padding. -/
def shaPad (msg : List Nat) : List Nat :=
  msg ++ [0x80] ++ List.replicate ((119 - msg.length % 64) % 64) 0 ++ lenBytes msg.length

/-- Group bytes into big-endian 32-bit words. -/
def toWords : List Nat → List Nat
  | b0 :: b1 :: b2 :: b3 :: rest =>
      ((b0 <<< 24) ||| (b1 <<< 16) ||| (b2 <<< 8) ||| b3) :: toWords rest
  | _ => []

/-- Split a byte list into 64-byte blocks (fuel bounds the recursion depth;
`blocks64` supplies enough fuel for the whole list). -/
def blocks64Aux : Nat → List Nat → List (List Nat)
  | 0, _ => []
  | _, [] => []
  | fuel + 1, l => (l.take 64) :: blocks64Aux fuel (l.drop 64)

/-- Split a byte list into 64-byte blocks. -/
def blocks64 (l : List Nat) : List (List Nat) := blocks64Aux (l.length + 1) l

/-- Message-schedule extension: append `fuel` further words. -/
def extendW : Nat → List Nat → List Nat
  | 0, w => w
  | n + 1, w =>
      let i := w.length
      let wi := u32 (w.getD (i - 16) 0 + ssig0 (w.getD (i - 15) 0) +
                     w.getD (i - 7) 0 + ssig1 (w.getD (i - 2) 0))
      extendW n (w ++ [wi])

/-- Working state of the compression function. -/
structure ShaSt where
  a : Nat
  b : Nat
  c : Nat
  d : Nat
  e : Nat
  f : Nat
  g : Nat
  hh : Nat

def compressStep (st : ShaSt) (kw : Nat × Nat) : ShaSt :=
  let ch := (st.e &&& st.f) ^^^ ((st.e ^^^ 0xffffffff) &&& st.g)
  let maj := (st.a &&& st.b) ^^^ (st.a &&& st.c) ^^^ (st.b &&& st.c)
  let t1 := u32 (st.hh + bsig1 st.e + ch + kw.1 + kw.2)
  let t2 := u32 (bsig0 st.a + maj)
  { a := u32 (t1 + t2), b := st.a, c := st.b, d := st.c,
    e := u32 (st.d + t1), f := st.e, g := st.f, hh := st.g }

/-- Process one 64-byte block, updating the 8-word hash state. -/
def shaBlock (h : List Nat) (block : List Nat) : List Nat :=
  let w := extendW 48 (toWords block)
  let st0 : ShaSt := { a := h.getD 0 0, b := h.getD 1 0, c := h.getD 2 0, d := h.getD 3 0,
                       e := h.getD 4 0, f := h.getD 5 0, g := h.getD 6 0, hh := h.getD 7 0 }
  let st := (shaK.zip w).foldl (fun s kw => compressStep s (kw.1, kw.2)) st0
  [u32 (h.getD 0 0 + st.a), u32 (h.getD 1 0 + st.b), u32 (h.getD 2 0 + st.c),
   u32 (h.getD 3 0 + st.d), u32 (h.getD 4 0 + st.e), u32 (h.getD 5 0 + st.f),
   u32 (h.getD 6 0 + st.g), u32 (h.getD 7 0 + st.hh)]

/-- SHA-256 digest (8 words) of a byte list. -/
def sha256Words (msg : List Nat) : List Nat :=
  (blocks64 (shaPad msg)).foldl shaBlock shaH0

def hexDigit (n : Nat) : Char :=
  if n < 10 then Char.ofNat (48 + n) else Char.ofNat (87 + n)

/-- Lowercase hex rendering of one 32-bit word. -/
def hexOfWord (w : Nat) : List Char :=
  [28, 24, 20, 16, 12, 8, 4, 0].map (fun k => hexDigit ((w >>> k) &&& 0xf))

/-- Python `hashlib.sha256(bytes).hexdigest()`. -/
def sha256hex (msg : List Nat) : String :=
  ⟨(sha256Words msg).foldr (fun w acc => hexOfWord w ++ acc) []⟩

/-! ## Title extraction (generate_document, server.py lines 402-413)

The Python code runs `re.search(r'^#+\s*(.+)$', ai_content, re.MULTILINE)` and,
on a match, takes `group(1).strip()`; otherwise it falls back to
`ai_content.split('.')[0]`, truncated to 100 characters plus `"..."` when longer
than 100.  Either way it then strips the characters `# * _` and backtick via
`re.sub` and strips surrounding whitespace.  The regex is embedded directly:
`^` anchors at line starts, `#+` is greedy with backtracking, `\s*` is greedy
whitespace (which can cross newlines) with backtracking, `(.+)$` takes the
longest newline-free nonempty run ending at a line boundary. -/

/-- Code points of Python whitespace (`\s` with the default Unicode semantics,
the same set used by `str.strip()` / `str.isspace()`). -/
def wsCodes : List Nat :=
  [0x20, 0x9, 0xa, 0xd, 0xb, 0xc, 0x1c, 0x1d, 0x1e, 0x1f, 0x85, 0xa0,
   0x1680, 0x2000, 0x2001, 0x2002, 0x2003, 0x2004, 0x2005, 0x2006, 0x2007,
   0x2008, 0x2009, 0x200a, 0x2028, 0x2029, 0x202f, 0x205f, 0x3000]

/-- Python whitespace test. -/
def isWs (c : Char) : Bool := c.toNat ∈ wsCodes

/-- The character class tests used by the regex embedding. -/
def isHash (c : Char) : Bool := c = '#'

def isNl (c : Char) : Bool := c = '\n'

def notNl (c : Char) : Bool := c ≠ '\n'

def notDot (c : Char) : Bool := c ≠ '.'

/-- Python `str.strip()`. -/
def pyStrip (l : List Char) : List Char :=
  ((l.dropWhile isWs).reverse.dropWhile isWs).reverse

/-- Backtracking of a maximal `\s*` run `w` when `(.+)` cannot start after it:
the group becomes the last non-newline character of `w`, if any. -/
def backtrackWS (w : List Char) : Option (List Char) :=
  match w.reverse.dropWhile isNl with
  | [] => none
  | c :: _ => some [c]

/-- Match `\s*(.+)$` at the start of `s`, returning the captured group. -/
def matchTailWS (s : List Char) : Option (List Char) :=
  match s.dropWhile isWs with
  | c :: cs => some ((c :: cs).takeWhile notNl)
  | [] => backtrackWS (s.takeWhile isWs)

/-- Backtracking over the `#+` run: try consuming `k` hashes, then `k-1`, ... -/
def tryHash (s : List Char) : Nat → Option (List Char)
  | 0 => none
  | k + 1 =>
    match matchTailWS (s.drop (k + 1)) with
    | some g => some g
    | none => tryHash s k

/-- Scan line starts left to right for the leftmost `^#+\s*(.+)$` match
(fuel-based recursion over the remaining suffix). -/
def searchLinesAux : Nat → List Char → Option (List Char)
  | 0, _ => none
  | fuel + 1, s =>
    match tryHash s ((s.takeWhile isHash).length) with
    | some g => some g
    | none =>
      match s.dropWhile notNl with
      | [] => none
      | _ :: rest => searchLinesAux fuel rest

/-- The search `re.search(r'^#+\s*(.+)$', s, re.MULTILINE)`, returning `group(1)`. -/
def searchHeading (s : List Char) : Option (List Char) :=
  searchLinesAux (s.length + 1) s

/-- The characters removed by `re.sub(r'[#*_` ++ "`" ++ r']', '', title)`. -/
def isMarker (c : Char) : Bool :=
  c = '#' || c = '*' || c = '_' || c = Char.ofNat 96

/-- Shared post-processing of the extracted title (server.py line 413). -/
def cleanTitle (t : List Char) : List Char :=
  pyStrip (t.filter (fun c => !(isMarker c)))

def ellipsis : List Char := ['.', '.', '.']

/-- Title extraction from AI-generated content (server.py lines 402-413). -/
def extract_title (content : List Char) : List Char :=
  match searchHeading content with
  | some g => cleanTitle (pyStrip g)
  | none =>
    let s0 := content.takeWhile notDot
    let t := if 100 < s0.length then s0.take 100 ++ ellipsis else s0
    cleanTitle t

/-- Spec-side description, for comparison with the code: the text of the first
Markdown heading line (first line starting with the character `#`), with leading
hash marks and leading whitespace removed; `none` when no line starts with `#`. -/
def firstHashAux : Nat → List Char → Option (List Char)
  | 0, _ => none
  | fuel + 1, s =>
    if s.head? = some '#' then
      some (((s.takeWhile notNl).dropWhile isHash).dropWhile isWs)
    else
      match s.dropWhile notNl with
      | [] => none
      | _ :: rest => firstHashAux fuel rest

/-- See `firstHashAux`. -/
def firstHashLineText (s : List Char) : Option (List Char) :=
  firstHashAux (s.length + 1) s

/-! ## Data model (server.py MODELS section and Mongo documents)

`Time` is the ISO-8601 rendering of a `datetime` (`isoformat()`), which is the
form the signature hash consumes; Mongo's chronological ordering of stored
datetimes coincides with lexicographic order of these renderings. -/

abbrev Time := String

structure HTTPException where
  status_code : Nat
  detail : String
deriving DecidableEq, Repr

/-- A stored user document (register handler, server.py lines 296-306). -/
structure UserR where
  id : String
  email : String
  first_name : String
  last_name : String
  role : String
  clinic_id : Option String
  password_hash : String
  created_at : Time
  is_active : Bool
deriving DecidableEq, Repr

/-- A stored clinic document (create_clinic handler, lines 342-353). -/
structure ClinicR where
  id : String
  slug : String
  name : String
  abn : Option String
  address : String
  state : String
  phone : Option String
  email : Option String
  owner_id : String
  created_at : Time
deriving DecidableEq, Repr

/-- A stored document (generate/upload handlers; signature fields added on
publish, lines 478-490). -/
structure DocR where
  id : String
  title : String
  content : String
  category : String
  jurisdiction : String
  clinic_id : String
  status : String
  version : Nat
  tags : List String
  created_by : String
  created_at : Time
  updated_at : Time
  signature_hash : Option String := none
  signed_by : Option String := none
  signed_at : Option Time := none
deriving DecidableEq, Repr

/-- A stored risk document (create_risk handler, lines 526-541). -/
structure RiskR where
  id : String
  title : String
  description : String
  category : String
  severity : Int
  likelihood : Int
  mitigation_plan : Option String
  clinic_id : String
  risk_score : Int
  status : String
  owner_id : Option String
  linked_docs : List String
  created_at : Time
  updated_at : Time
deriving DecidableEq, Repr

/-- A stored audit record (lines 505-514).  The stub score 85.0 is integral, so
it is carried as a natural number. -/
structure AuditRec where
  id : String
  document_id : String
  score : Nat
  recommendations : List String
  audited_by : String
  audited_at : Time
deriving DecidableEq, Repr

/-- The five Mongo collections; list order is the store's natural
(insertion) order. -/
structure DB where
  users : List UserR
  clinics : List ClinicR
  documents : List DocR
  risks : List RiskR
  audits : List AuditRec
deriving DecidableEq, Repr

def emptyDB : DB := ⟨[], [], [], [], []⟩

/-- Mongo `update_one`: apply `f` to the first element satisfying `p`. -/
def updateFirst (p : α → Bool) (f : α → α) : List α → List α
  | [] => []
  | x :: xs => if p x then f x :: xs else x :: updateFirst p f xs

/-! ## Sorting (Mongo `find(query).sort(key, -1)`)

A stable insertion sort: an element moves below exactly the elements strictly
greater under the key, so ties keep the store's natural order. -/

def insertByGt (gt : α → α → Bool) (x : α) : List α → List α
  | [] => [x]
  | y :: ys => if gt y x then y :: insertByGt gt x ys else x :: y :: ys

def sortByGt (gt : α → α → Bool) : List α → List α
  | [] => []
  | x :: xs => insertByGt gt x (sortByGt gt xs)

/-- Lexicographic comparison of character lists; on ISO-8601 renderings this is
the chronological order Mongo uses for stored datetimes. -/
def charListLt : List Char → List Char → Bool
  | [], [] => false
  | [], _ :: _ => true
  | _ :: _, [] => false
  | a :: as, b :: bs => if a < b then true else if b < a then false else charListLt as bs

def timeLt (a b : Time) : Bool := charListLt (String.toList a) (String.toList b)

def riskGt (a b : RiskR) : Bool := b.risk_score < a.risk_score

def docGt (a b : DocR) : Bool := timeLt b.created_at a.created_at

/-! ## Handlers (server.py route functions)

External effects appear as explicit parameters: generated identifiers
(`uuid.uuid4()`), each `datetime.utcnow()` call in source order, the configured
AI credential, and the outcome of the external AI / file-parse call. -/

/-- Exceptions as seen by a Python caller: `HTTPException(status, detail)` or
any other exception. -/
inductive PyExc where
  | httpExc (status_code : Nat) (detail : String)
  | other (msg : String)
deriving DecidableEq, Repr

/-- server.py lines 191-194: SHA-256 over `f"{content}{user_id}{timestamp.isoformat()}"`. -/
def create_document_hash (content : String) (user_id : String) (t : Time) : String :=
  sha256hex (utf8 (String.toList (content ++ user_id ++ t)))

/-- The four recognized statuses (DocumentStatus, lines 94-98 and 470). -/
def valid_statuses : List String := ["draft", "review", "published", "archived"]

/-- server.py lines 287-313 (`register`).  Password hashing and token issuance
are external collaborators; the stored record is what matters here. -/
def register (db : DB) (email first_name last_name role : String)
    (clinic_id : Option String) (password_hash user_id : String) (tNow : Time) :
    Except HTTPException (DB × UserR) :=
  if (db.users.find? (fun u => u.email == email)).isSome then
    .error ⟨400, "Email already registered"⟩
  else
    let user : UserR :=
      { id := user_id, email := email, first_name := first_name,
        last_name := last_name, role := role, clinic_id := clinic_id,
        password_hash := password_hash, created_at := tNow, is_active := true }
    .ok ({ db with users := db.users ++ [user] }, user)

/-- server.py lines 337-363 (`create_clinic`): insert the clinic, then set the
creating user's clinic affiliation (two separate writes).  The slug comes from
the external `slugify` and is passed in. -/
def create_clinic (db : DB) (name : String) (abn : Option String) (address state : String)
    (phone email : Option String) (current_user : UserR) (clinic_id slug : String)
    (tNow : Time) : DB × ClinicR :=
  let clinic : ClinicR :=
    { id := clinic_id, slug := slug, name := name, abn := abn,
      address := address, state := state, phone := phone, email := email,
      owner_id := current_user.id, created_at := tNow }
  let db1 := { db with clinics := db.clinics ++ [clinic] }
  let setAff : UserR → UserR := fun u => { u with clinic_id := some clinic_id }
  let db2 := { db1 with users := updateFirst (fun u => u.id == current_user.id) setAff db1.users }
  (db2, clinic)

/-- server.py lines 373-383 (`get_user_clinics`): clinics where the user is the
owner or whose id equals the user's affiliation; no sort; `to_list(100)`. -/
def clinicQuery (current_user : UserR) (c : ClinicR) : Bool :=
  c.owner_id == current_user.id ||
  (match current_user.clinic_id with
   | some cid => c.id == cid
   | none => false)

/-- See `clinicQuery`; the handler itself is `find(query).to_list(100)`, no sort. -/
def get_user_clinics (db : DB) (current_user : UserR) : List ClinicR :=
  (db.clinics.filter (clinicQuery current_user)).take 100

/-- server.py lines 196-237 (`generate_ai_document`): the credential check and
the AI call both live inside a `try` whose blanket `except` replaces any raised
exception (including the `HTTPException` for a missing credential) with
`HTTPException(500, "Document generation failed")`. -/
def generate_ai_document (api_key : Option String) (aiResult : Except String String) :
    Except PyExc String :=
  let body : Except PyExc String :=
    match api_key with
    | none => .error (.httpExc 500 "AI service not configured")
    | some _ =>
      match aiResult with
      | .ok response => .ok response
      | .error m => .error (.other m)
  match body with
  | .ok response => .ok response
  | .error _ => .error (.httpExc 500 "Document generation failed")

/-- server.py lines 389-431 (`generate_document`). -/
def generate_document (db : DB) (prompt category jurisdiction clinic_id : String)
    (current_user : UserR) (api_key : Option String) (aiResult : Except String String)
    (doc_id : String) (tCreated tUpdated : Time) :
    Except PyExc (DB × DocR) :=
  match db.clinics.find? (fun c => c.id == clinic_id) with
  | none => .error (.httpExc 404 "Clinic not found")
  | some _ =>
    match generate_ai_document api_key aiResult with
    | .error e => .error e
    | .ok ai_content =>
      let doc : DocR :=
        { id := doc_id,
          title := ⟨extract_title (String.toList ai_content)⟩,
          content := ai_content, category := category, jurisdiction := jurisdiction,
          clinic_id := clinic_id, status := "draft", version := 1, tags := [],
          created_by := current_user.id, created_at := tCreated, updated_at := tUpdated }
      .ok ({ db with documents := db.documents ++ [doc] }, doc)

/-- server.py lines 433-454 (`get_documents`): the query built from the optional
clinic/status/category filters and the user's affiliation. -/
def docQuery (clinic_id status_f category_f : Option String) (current_user : UserR)
    (d : DocR) : Bool :=
  (match clinic_id with
   | some cid => d.clinic_id == cid
   | none =>
     match current_user.clinic_id with
     | some ucid => d.clinic_id == ucid
     | none => true) &&
  (match status_f with
   | some s => d.status == s
   | none => true) &&
  (match category_f with
   | some c => d.category == c
   | none => true)

/-- server.py lines 433-454: `find(query).sort("created_at", -1).to_list(100)`. -/
def get_documents (db : DB) (clinic_id status_f category_f : Option String)
    (current_user : UserR) : List DocR :=
  (sortByGt docGt (db.documents.filter
    (docQuery clinic_id status_f category_f current_user))).take 100

/-- The `$set` document written on a status change (server.py lines 478-490):
always `status` and `updated_at`; additionally the three signature fields when
the target status is `published`. -/
def statusUpdate (status : String) (tUpd : Time) (sigHash signer : String)
    (tSigned : Time) (d : DocR) : DocR :=
  let d1 := { d with status := status, updated_at := tUpd }
  if status = "published" then
    { d1 with signature_hash := some sigHash, signed_by := some signer,
              signed_at := some tSigned }
  else d1

/-- server.py lines 464-493 (`update_document_status`).  The three
`datetime.utcnow()` calls, in source order: `tUpd` (the `updated_at` value,
line 480), `tHash` (the timestamp fed to `create_document_hash`, line 485) and
`tSigned` (the stored `signed_at`, line 489). -/
def update_document_status (db : DB) (doc_id status : String) (current_user : UserR)
    (tUpd tHash tSigned : Time) : Except HTTPException (DB × String) :=
  if status ∈ valid_statuses then
    match db.documents.find? (fun d => d.id == doc_id) with
    | none => .error ⟨404, "Document not found"⟩
    | some doc =>
      let upd := statusUpdate status tUpd
        (create_document_hash doc.content current_user.id tHash) current_user.id tSigned
      let docs := updateFirst (fun d => d.id == doc_id) upd db.documents
      .ok ({ db with documents := docs }, "Document status updated")
  else .error ⟨400, "Invalid status"⟩

/-- server.py lines 239-281 (`audit_document`): same try/except shape as
generation; on success the parsed result is the fixed placeholder. -/
def audit_document (api_key : Option String) (aiResult : Except String String) :
    Except PyExc (Nat × List String) :=
  let body : Except PyExc (Nat × List String) :=
    match api_key with
    | none => .error (.httpExc 500 "AI service not configured")
    | some _ =>
      match aiResult with
      | .ok _ => .ok (85, ["Review and update annually", "Ensure staff training"])
      | .error m => .error (.other m)
  match body with
  | .ok r => .ok r
  | .error _ => .error (.httpExc 500 "Document audit failed")

/-- server.py lines 495-517 (`audit_document_endpoint`): persists the
append-only audit record. -/
def audit_document_endpoint (db : DB) (doc_id : String) (current_user : UserR)
    (api_key : Option String) (aiResult : Except String String)
    (audit_id : String) (tNow : Time) : Except PyExc (DB × AuditRec) :=
  match db.documents.find? (fun d => d.id == doc_id) with
  | none => .error (.httpExc 404 "Document not found")
  | some _ =>
    match audit_document api_key aiResult with
    | .error e => .error e
    | .ok (score, recs) =>
      let rec0 : AuditRec :=
        { id := audit_id, document_id := doc_id, score := score,
          recommendations := recs, audited_by := current_user.id, audited_at := tNow }
      .ok ({ db with audits := db.audits ++ [rec0] }, rec0)

/-- server.py lines 523-544 (`create_risk`).  The `severity`/`likelihood`
bounds are enforced by the pydantic `Field(..., ge=1, le=5)` declarations
(lines 132-133) before the handler body runs; FastAPI rejects violations with a
422 validation error and nothing is stored. -/
def create_risk (db : DB) (title description category : String)
    (severity likelihood : Int) (mitigation_plan : Option String) (clinic_id : String)
    (current_user : UserR) (risk_id : String) (tCreated tUpdated : Time) :
    Except HTTPException (DB × RiskR) :=
  if severity < 1 || 5 < severity || likelihood < 1 || 5 < likelihood then
    .error ⟨422, "validation error"⟩
  else
    let risk : RiskR :=
      { id := risk_id, title := title, description := description,
        category := category, severity := severity, likelihood := likelihood,
        mitigation_plan := mitigation_plan, clinic_id := clinic_id,
        risk_score := severity * likelihood, status := "open",
        owner_id := some current_user.id, linked_docs := [],
        created_at := tCreated, updated_at := tUpdated }
    .ok ({ db with risks := db.risks ++ [risk] }, risk)

/-- server.py lines 546-555 (`get_risks`): the clinic scope of the query. -/
def riskQuery (clinic_id : Option String) (current_user : UserR) (r : RiskR) : Bool :=
  match clinic_id with
  | some cid => r.clinic_id == cid
  | none =>
    match current_user.clinic_id with
    | some ucid => r.clinic_id == ucid
    | none => true

/-- server.py lines 546-555: `find(query).sort("risk_score", -1).to_list(100)`. -/
def get_risks (db : DB) (clinic_id : Option String) (current_user : UserR) : List RiskR :=
  (sortByGt riskGt (db.risks.filter (riskQuery clinic_id current_user))).take 100

/-- server.py lines 561-606 (`upload_document`), after the external file-text
extraction: `size` is `file.size`, `parsed` the outcome of the parse branch. -/
def upload_document (db : DB) (size : Nat) (parsed : Except String String)
    (filename category jurisdiction clinic_id : String) (current_user : UserR)
    (doc_id : String) (tCreated tUpdated : Time) :
    Except HTTPException (DB × String) :=
  if size > 20 * 1024 * 1024 then .error ⟨400, "File too large"⟩
  else
    match parsed with
    | .error e => .error ⟨400, "Failed to process file: " ++ e⟩
    | .ok extracted_text =>
      let doc : DocR :=
        { id := doc_id, title := filename, content := extracted_text,
          category := category, jurisdiction := jurisdiction, clinic_id := clinic_id,
          status := "draft", version := 1, tags := ["uploaded"],
          created_by := current_user.id, created_at := tCreated, updated_at := tUpdated }
      .ok ({ db with documents := db.documents ++ [doc] }, doc_id)

/-! ## The exposed operations as one step relation (for frame properties) -/

/-- One exposed API operation, with its external inputs.  Read-only endpoints
(`login`, `/auth/me`, clinic/document/risk reads, `/settings`) never write the
document store and are grouped as `readOnly`; `save_settings` writes only the
process environment, not the store. -/
inductive Op where
  | opRegister (email first_name last_name role : String) (clinicId : Option String)
      (pwHash uid : String) (t : Time)
  | opCreateClinic (name : String) (abn : Option String) (address state : String)
      (phone email : Option String) (u : UserR) (cid slug : String) (t : Time)
  | opGenerateDoc (prompt category jurisdiction clinicId : String) (u : UserR)
      (apiKey : Option String) (ai : Except String String) (did : String) (t1 t2 : Time)
  | opUploadDoc (size : Nat) (parsed : Except String String)
      (filename category jurisdiction clinicId : String) (u : UserR) (did : String)
      (t1 t2 : Time)
  | opSetStatus (did st : String) (u : UserR) (t1 t2 t3 : Time)
  | opAuditDoc (did : String) (u : UserR) (apiKey : Option String)
      (ai : Except String String) (aid : String) (t : Time)
  | opCreateRisk (title description category : String) (sev lik : Int)
      (mit : Option String) (clinicId : String) (u : UserR) (rid : String) (t1 t2 : Time)
  | readOnly

/-- The store after running one operation (an errored handler performed no
store write in the source: every raise precedes the insert/update). -/
def applyOp (db : DB) : Op → DB
  | .opRegister email fn ln role cid pw uid t =>
    match register db email fn ln role cid pw uid t with
    | .ok (db', _) => db'
    | .error _ => db
  | .opCreateClinic name abn addr st ph em u cid slug t =>
    (create_clinic db name abn addr st ph em u cid slug t).1
  | .opGenerateDoc prompt cat jur cid u key ai did t1 t2 =>
    match generate_document db prompt cat jur cid u key ai did t1 t2 with
    | .ok (db', _) => db'
    | .error _ => db
  | .opUploadDoc size parsed fn cat jur cid u did t1 t2 =>
    match upload_document db size parsed fn cat jur cid u did t1 t2 with
    | .ok (db', _) => db'
    | .error _ => db
  | .opSetStatus did st u t1 t2 t3 =>
    match update_document_status db did st u t1 t2 t3 with
    | .ok (db', _) => db'
    | .error _ => db
  | .opAuditDoc did u key ai aid t =>
    match audit_document_endpoint db did u key ai aid t with
    | .ok (db', _) => db'
    | .error _ => db
  | .opCreateRisk title descr cat sev lik mit cid u rid t1 t2 =>
    match create_risk db title descr cat sev lik mit cid u rid t1 t2 with
    | .ok (db', _) => db'
    | .error _ => db
  | .readOnly => db

/-- Helper: the store of a successful handler result. -/
def okState {α : Type} : Except HTTPException (DB × α) → Option DB
  | .ok (db, _) => some db
  | .error _ => none

/-- The document fields never written after creation by any exposed operation
(everything except `status`, `updated_at` and the signature fields). -/
def persistEq (d d' : DocR) : Prop :=
  d'.id = d.id ∧ d'.title = d.title ∧ d'.category = d.category ∧
  d'.content = d.content ∧ d'.jurisdiction = d.jurisdiction ∧
  d'.clinic_id = d.clinic_id ∧ d'.version = d.version ∧ d'.tags = d.tags ∧
  d'.created_by = d.created_by ∧ d'.created_at = d.created_at

/-- The three signature fields agree. -/
def sigEq (d d' : DocR) : Prop :=
  d'.signature_hash = d.signature_hash ∧ d'.signed_by = d.signed_by ∧
  d'.signed_at = d.signed_at

/-- Placeholder document used as the `getD` default in positional statements. -/
def dfltDoc : DocR :=
  { id := "", title := "", content := "", category := "", jurisdiction := "",
    clinic_id := "", status := "", version := 0, tags := [], created_by := "",
    created_at := "", updated_at := "" }

/-! ## Concrete fixtures for witnesses and counterexamples -/

/-- A user with no clinic affiliation. -/
def user0 : UserR :=
  { id := "u", email := "u@example.com", first_name := "Uma", last_name := "User",
    role := "staff", clinic_id := none, password_hash := "pw",
    created_at := "2025-01-01T00:00:00", is_active := true }

/-- A risk stored for clinic "c" with score 1. -/
def risk0 : RiskR :=
  { id := "r", title := "t", description := "d", category := "clinical",
    severity := 1, likelihood := 1, mitigation_plan := none, clinic_id := "c",
    risk_score := 1, status := "open", owner_id := some "u", linked_docs := [],
    created_at := "2025-01-01T00:00:00", updated_at := "2025-01-01T00:00:00" }

/-- A store holding 101 risks in clinic "c". -/
def db101 : DB := { emptyDB with risks := List.replicate 101 risk0 }

/-- A clinic with id "c" owned by `user0`. -/
def clinic0 : ClinicR :=
  { id := "c", slug := "test-clinic", name := "Test Clinic", abn := none,
    address := "1 Test St", state := "NSW", phone := none, email := none,
    owner_id := "u", created_at := "2025-01-01T00:00:00" }

/-- A draft document with content "p" in clinic "c". -/
def doc0 : DocR :=
  { id := "d1", title := "T", content := "p", category := "policy",
    jurisdiction := "national", clinic_id := "c", status := "draft", version := 1,
    tags := [], created_by := "u", created_at := "2025-01-01T00:00:00",
    updated_at := "2025-01-01T00:00:00" }

/-- A second document, stored for a different clinic. -/
def doc1 : DocR := { doc0 with id := "d2", clinic_id := "c2" }

/-- A store holding one draft document. -/
def dbDoc : DB := { emptyDB with documents := [doc0] }

/-- A store holding documents of two different clinics. -/
def dbDocs2 : DB := { emptyDB with documents := [doc0, doc1] }

def r20 : RiskR := { risk0 with id := "r20", severity := 4, likelihood := 5, risk_score := 20 }

def r5 : RiskR := { risk0 with id := "r5", severity := 1, likelihood := 5, risk_score := 5 }

def r15 : RiskR := { risk0 with id := "r15", severity := 3, likelihood := 5, risk_score := 15 }

/-- Risks stored in score order 20, 5, 15 (the spec's listing example). -/
def dbRisks3 : DB := { emptyDB with risks := [r20, r5, r15] }

/-! ## Generic list lemmas -/

set_option maxRecDepth 10000 in
/-- Sanity anchor: the standard SHA-256 test vector for "abc". -/
theorem sha256hex_abc :
    sha256hex (utf8 "abc".toList) =
      "ba7816bf8f01cfea414140de5dae2223b00361a396177a9cb410ff61f20015ad" := by
  decide

theorem updateFirst_length (p : α → Bool) (f : α → α) (l : List α) :
    (updateFirst p f l).length = l.length := by
  induction l with
  | nil => rfl
  | cons x xs ih =>
    simp only [updateFirst]
    by_cases h : p x <;> simp [h, ih]

theorem updateFirst_getD (p : α → Bool) (f : α → α) (l : List α) (i : Nat) (d : α) :
    (updateFirst p f l).getD i d = l.getD i d ∨
    (updateFirst p f l).getD i d = f (l.getD i d) := by
  induction l generalizing i with
  | nil => left; simp [updateFirst]
  | cons x xs ih =>
    simp only [updateFirst]
    by_cases h : p x
    · simp only [if_pos h]
      cases i with
      | zero => right; simp
      | succ n => left; simp
    · simp only [if_neg h]
      cases i with
      | zero => left; simp
      | succ n => simpa using ih n

theorem find?_updateFirst (p : α → Bool) (f : α → α) (l : List α) (x : α)
    (hpf : ∀ a, p a = true → p (f a) = true) (hx : l.find? p = some x) :
    (updateFirst p f l).find? p = some (f x) := by
  induction l with
  | nil => simp [List.find?] at hx
  | cons y ys ih =>
    by_cases h : p y
    · rw [List.find?_cons_of_pos ys h] at hx
      have hxy : y = x := by injection hx
      subst hxy
      simp only [updateFirst, if_pos h]
      exact List.find?_cons_of_pos ys (hpf y h)
    · rw [List.find?_cons_of_neg ys h] at hx
      simp only [updateFirst, if_neg h]
      rw [List.find?_cons_of_neg _ h]
      exact ih hx

theorem insertByGt_perm (gt : α → α → Bool) (x : α) (l : List α) :
    (insertByGt gt x l).Perm (x :: l) := by
  induction l with
  | nil => exact List.Perm.refl _
  | cons y ys ih =>
    simp only [insertByGt]
    by_cases h : gt y x
    · simp only [if_pos h]
      exact (ih.cons y).trans (List.Perm.swap x y ys)
    · simp only [if_neg h]
      exact List.Perm.refl _

theorem sortByGt_perm (gt : α → α → Bool) (l : List α) :
    (sortByGt gt l).Perm l := by
  induction l with
  | nil => exact List.Perm.refl _
  | cons x xs ih =>
    exact (insertByGt_perm gt x (sortByGt gt xs)).trans (ih.cons x)

theorem insertByGt_pairwise (gt : α → α → Bool)
    (hasym : ∀ a b, gt a b = true → gt b a = false)
    (hneg : ∀ a b c, gt b a = false → gt c b = false → gt c a = false)
    (x : α) (l : List α) (hl : l.Pairwise (fun a b => gt b a = false)) :
    (insertByGt gt x l).Pairwise (fun a b => gt b a = false) := by
  induction l with
  | nil => simp [insertByGt]
  | cons y ys ih =>
    obtain ⟨hy, hys⟩ := List.pairwise_cons.mp hl
    simp only [insertByGt]
    by_cases h : gt y x
    · simp only [if_pos h]
      refine List.pairwise_cons.mpr ⟨?_, ih hys⟩
      intro z hz
      have hz' : z ∈ x :: ys := (insertByGt_perm gt x ys).mem_iff.mp hz
      rcases List.mem_cons.mp hz' with rfl | hmem
      · exact hasym y z h
      · exact hy z hmem
    · simp only [if_neg h]
      refine List.pairwise_cons.mpr ⟨?_, hl⟩
      intro z hz
      have hyx : gt y x = false := by simpa using h
      rcases List.mem_cons.mp hz with rfl | hmem
      · exact hyx
      · exact hneg x y z hyx (hy z hmem)

theorem sortByGt_pairwise (gt : α → α → Bool)
    (hasym : ∀ a b, gt a b = true → gt b a = false)
    (hneg : ∀ a b c, gt b a = false → gt c b = false → gt c a = false)
    (l : List α) :
    (sortByGt gt l).Pairwise (fun a b => gt b a = false) := by
  induction l with
  | nil => simp [sortByGt]
  | cons x xs ih => exact insertByGt_pairwise gt hasym hneg x _ ih

theorem dropWhile_append_of_ne_nil (p : α → Bool) (l m : List α)
    (h : l.dropWhile p ≠ []) : (l ++ m).dropWhile p = l.dropWhile p ++ m := by
  induction l with
  | nil => simp [List.dropWhile] at h
  | cons x xs ih =>
    by_cases hx : p x
    · simp only [List.dropWhile_cons_of_pos hx] at h ⊢
      rw [List.cons_append, List.dropWhile_cons_of_pos hx]
      exact ih h
    · rw [List.cons_append, List.dropWhile_cons_of_neg hx, List.dropWhile_cons_of_neg hx,
        List.cons_append]

theorem takeWhile_append_of_all (p : α → Bool) (l m : List α)
    (hl : ∀ c ∈ l, p c = true) (hm : m = [] ∨ ∃ c cs, m = c :: cs ∧ p c = false) :
    (l ++ m).takeWhile p = l := by
  induction l with
  | nil =>
    rcases hm with rfl | ⟨c, cs, rfl, hc⟩
    · rfl
    · simp [List.takeWhile_cons_of_neg, hc]
  | cons x xs ih =>
    have hx : p x = true := hl x (List.mem_cons_self x xs)
    rw [List.cons_append, List.takeWhile_cons_of_pos hx,
      ih (fun c hc => hl c (List.mem_cons_of_mem x hc))]

theorem dropWhile_head_false (p : α → Bool) (l : List α) (c : α) (cs : List α)
    (h : l.dropWhile p = c :: cs) : p c = false := by
  induction l with
  | nil => simp [List.dropWhile] at h
  | cons x xs ih =>
    by_cases hx : p x
    · rw [List.dropWhile_cons_of_pos hx] at h
      exact ih h
    · rw [List.dropWhile_cons_of_neg hx] at h
      obtain rfl : x = c := by injection h
      simpa using hx

theorem takeWhile_all_of_mem (p : α → Bool) (l : List α) (c : α)
    (h : c ∈ l.takeWhile p) : p c = true :=
  List.mem_takeWhile_imp h

/-! ## Properties of the status updater -/

theorem statusUpdate_id (st : String) (tU : Time) (sh sg : String) (tS : Time) (d : DocR) :
    (statusUpdate st tU sh sg tS d).id = d.id := by
  by_cases h : st = "published" <;> simp [statusUpdate, h]

theorem statusUpdate_status (st : String) (tU : Time) (sh sg : String) (tS : Time) (d : DocR) :
    (statusUpdate st tU sh sg tS d).status = st := by
  by_cases h : st = "published" <;> simp [statusUpdate, h]

theorem statusUpdate_updated_at (st : String) (tU : Time) (sh sg : String) (tS : Time) (d : DocR) :
    (statusUpdate st tU sh sg tS d).updated_at = tU := by
  by_cases h : st = "published" <;> simp [statusUpdate, h]

theorem statusUpdate_persistEq (st : String) (tU : Time) (sh sg : String) (tS : Time) (d : DocR) :
    persistEq d (statusUpdate st tU sh sg tS d) := by
  by_cases h : st = "published" <;> simp [statusUpdate, h, persistEq]

theorem statusUpdate_sigEq (st : String) (tU : Time) (sh sg : String) (tS : Time) (d : DocR)
    (h : st ≠ "published") : sigEq d (statusUpdate st tU sh sg tS d) := by
  simp [statusUpdate, h, sigEq]

theorem statusUpdate_sig_published (tU : Time) (sh sg : String) (tS : Time) (d : DocR) :
    (statusUpdate "published" tU sh sg tS d).signature_hash = some sh ∧
    (statusUpdate "published" tU sh sg tS d).signed_by = some sg ∧
    (statusUpdate "published" tU sh sg tS d).signed_at = some tS := by
  simp [statusUpdate]

/-! ## Claim theorems -/

/-- C3: `createRisk` rejects severity or likelihood outside [1,5] (pydantic 422
validation error, the spec's InvalidArgument) with nothing stored; otherwise the
created risk is appended with risk_score = severity * likelihood (in [1,25]),
status "open", empty linked-document set, and the two current timestamps. -/
theorem create_risk_spec (db : DB) (title descr cat : String) (sev lik : Int)
    (mit : Option String) (cid : String) (u : UserR) (rid : String) (t1 t2 : Time) :
    ((sev < 1 ∨ 5 < sev ∨ lik < 1 ∨ 5 < lik) →
      create_risk db title descr cat sev lik mit cid u rid t1 t2 =
        .error ⟨422, "validation error"⟩)
    ∧ (1 ≤ sev → sev ≤ 5 → 1 ≤ lik → lik ≤ 5 →
      ∃ r : RiskR,
        create_risk db title descr cat sev lik mit cid u rid t1 t2 =
          .ok ({ db with risks := db.risks ++ [r] }, r) ∧
        r.risk_score = sev * lik ∧ 1 ≤ r.risk_score ∧ r.risk_score ≤ 25 ∧
        r.status = "open" ∧ r.linked_docs = [] ∧
        r.created_at = t1 ∧ r.updated_at = t2) := by
  constructor
  · intro h
    have hb : (decide (sev < 1) || decide (5 < sev) || decide (lik < 1) || decide (5 < lik))
        = true := by
      simp only [Bool.or_eq_true, decide_eq_true_eq]
      tauto
    simp [create_risk, hb]
  · intro h1 h2 h3 h4
    have hb : (decide (sev < 1) || decide (5 < sev) || decide (lik < 1) || decide (5 < lik))
        = false := by
      simp only [Bool.or_eq_false_iff, decide_eq_false_iff_not]
      omega
    refine ⟨{ id := rid, title := title, description := descr, category := cat,
              severity := sev, likelihood := lik, mitigation_plan := mit,
              clinic_id := cid, risk_score := sev * lik, status := "open",
              owner_id := some u.id, linked_docs := [], created_at := t1,
              updated_at := t2 }, ?_, rfl, ?_, ?_, rfl, rfl, rfl, rfl⟩
    · simp [create_risk, hb]
    · show (1 : Int) ≤ sev * lik
      nlinarith
    · show sev * lik ≤ 25
      nlinarith

/-- Witness for C3 at severity 4, likelihood 3 (valid) and severity 0 (invalid). -/
theorem create_risk_spec_witness :
    create_risk emptyDB "t" "d" "clinical" 0 3 none "c" user0 "r" "T1" "T2" =
      .error ⟨422, "validation error"⟩
    ∧ ∃ r : RiskR,
        create_risk emptyDB "t" "d" "clinical" 4 3 none "c" user0 "r" "T1" "T2" =
          .ok ({ emptyDB with risks := emptyDB.risks ++ [r] }, r) ∧
        r.risk_score = 4 * 3 ∧ 1 ≤ r.risk_score ∧ r.risk_score ≤ 25 ∧
        r.status = "open" ∧ r.linked_docs = [] ∧
        r.created_at = "T1" ∧ r.updated_at = "T2" := by
  constructor
  · exact (create_risk_spec emptyDB "t" "d" "clinical" 0 3 none "c" user0 "r" "T1" "T2").1
      (by omega)
  · exact (create_risk_spec emptyDB "t" "d" "clinical" 4 3 none "c" user0 "r" "T1" "T2").2
      (by omega) (by omega) (by omega) (by omega)

/-- C5: `setStatus` rejects an unrecognized target status with 400 Invalid
status (checked first, nothing written), a missing document with 404 Not found
(nothing written); on success only the document list changes, and the matched
document now carries the new status and the fresh `updated_at`. -/
theorem update_document_status_spec (db : DB) (did st : String) (u : UserR)
    (t1 t2 t3 : Time) :
    (st ∉ valid_statuses →
      update_document_status db did st u t1 t2 t3 = .error ⟨400, "Invalid status"⟩)
    ∧ (st ∈ valid_statuses → db.documents.find? (fun d => d.id == did) = none →
      update_document_status db did st u t1 t2 t3 = .error ⟨404, "Document not found"⟩)
    ∧ (∀ db' m, update_document_status db did st u t1 t2 t3 = .ok (db', m) →
      db'.users = db.users ∧ db'.clinics = db.clinics ∧ db'.risks = db.risks ∧
      db'.audits = db.audits ∧
      ∃ d d', db.documents.find? (fun d0 => d0.id == did) = some d ∧
        db'.documents.find? (fun d0 => d0.id == did) = some d' ∧
        d'.status = st ∧ d'.updated_at = t1) := by
  refine ⟨?_, ?_, ?_⟩
  · intro h
    simp only [update_document_status, if_neg h]
  · intro h hf
    simp only [update_document_status, if_pos h, hf]
  · intro db' m hok
    by_cases h : st ∈ valid_statuses
    · simp only [update_document_status, if_pos h] at hok
      cases hfind : db.documents.find? (fun d => d.id == did) with
      | none => rw [hfind] at hok; simp at hok
      | some doc =>
        rw [hfind] at hok
        simp only [Except.ok.injEq, Prod.mk.injEq] at hok
        obtain ⟨hdb, -⟩ := hok
        subst hdb
        refine ⟨rfl, rfl, rfl, rfl, doc,
          statusUpdate st t1 (create_document_hash doc.content u.id t2) u.id t3 doc,
          rfl, ?_, statusUpdate_status .., statusUpdate_updated_at ..⟩
        exact find?_updateFirst _ _ _ doc
          (fun a ha => by rwa [statusUpdate_id]) hfind
    · simp only [update_document_status, if_neg h] at hok
      simp at hok

/-- Witness for C5 on a one-document store: a bogus status, a missing id, and a
successful transition to review. -/
theorem update_document_status_spec_witness :
    update_document_status dbDoc "d1" "bogus" user0 "T1" "T2" "T3" =
      .error ⟨400, "Invalid status"⟩
    ∧ update_document_status dbDoc "nope" "review" user0 "T1" "T2" "T3" =
      .error ⟨404, "Document not found"⟩
    ∧ ∀ db' m, update_document_status dbDoc "d1" "review" user0 "T1" "T2" "T3" = .ok (db', m) →
        db'.users = dbDoc.users ∧ db'.clinics = dbDoc.clinics ∧ db'.risks = dbDoc.risks ∧
        db'.audits = dbDoc.audits ∧
        ∃ d d', dbDoc.documents.find? (fun d0 => d0.id == "d1") = some d ∧
          db'.documents.find? (fun d0 => d0.id == "d1") = some d' ∧
          d'.status = "review" ∧ d'.updated_at = "T1" := by
  refine ⟨?_, ?_, ?_⟩
  · exact (update_document_status_spec dbDoc "d1" "bogus" user0 "T1" "T2" "T3").1 (by decide)
  · exact (update_document_status_spec dbDoc "nope" "review" user0 "T1" "T2" "T3").2.1
      (by decide) (by decide)
  · exact (update_document_status_spec dbDoc "d1" "review" user0 "T1" "T2" "T3").2.2

theorem riskGt_asym (a b : RiskR) : riskGt a b = true → riskGt b a = false := by
  simp only [riskGt, decide_eq_true_eq, decide_eq_false_iff_not]
  omega

theorem riskGt_negtrans (a b c : RiskR) :
    riskGt b a = false → riskGt c b = false → riskGt c a = false := by
  simp only [riskGt, decide_eq_false_iff_not]
  omega

/-- C4 (amended): `listRisks` returns the scope's risks in non-increasing
risk_score order, truncated to the first 100 of the sorted sequence; when the
scope holds at most 100 risks this is exactly the risks in scope. -/
theorem get_risks_sorted (db : DB) (cid : Option String) (u : UserR) :
    (get_risks db cid u).Pairwise (fun a b => b.risk_score ≤ a.risk_score)
    ∧ (get_risks db cid u).length = min 100 (db.risks.filter (riskQuery cid u)).length
    ∧ (∀ x ∈ get_risks db cid u, x ∈ db.risks.filter (riskQuery cid u))
    ∧ ((db.risks.filter (riskQuery cid u)).length ≤ 100 →
        (get_risks db cid u).Perm (db.risks.filter (riskQuery cid u))) := by
  have hperm := sortByGt_perm riskGt (db.risks.filter (riskQuery cid u))
  refine ⟨?_, ?_, ?_, ?_⟩
  · have hp := sortByGt_pairwise riskGt riskGt_asym riskGt_negtrans
      (db.risks.filter (riskQuery cid u))
    have hs : (get_risks db cid u).Pairwise (fun a b => riskGt b a = false) :=
      hp.sublist (List.take_sublist 100 _)
    exact hs.imp (fun hab => by
      simpa only [riskGt, decide_eq_false_iff_not, Int.not_lt] using hab)
  · show (List.take 100 _).length = _
    rw [List.length_take, hperm.length_eq]
  · intro x hx
    exact hperm.mem_iff.mp (List.take_subset 100 _ hx)
  · intro hlen
    show (List.take 100 _).Perm _
    rw [List.take_of_length_le (by rw [hperm.length_eq]; exact hlen)]
    exact hperm

/-- Witness for C4: the spec's own example — stored scores [20, 5, 15] for
clinic "c" list as [20, 15, 5], a permutation of the scope in sorted order. -/
theorem get_risks_sorted_witness :
    (get_risks dbRisks3 (some "c") user0).Perm
      (dbRisks3.risks.filter (riskQuery (some "c") user0))
    ∧ (get_risks dbRisks3 (some "c") user0).map (fun r => r.risk_score) = [20, 15, 5] := by
  constructor
  · exact (get_risks_sorted dbRisks3 (some "c") user0).2.2.2 (by decide)
  · decide

/-- C4 counterexample: with 101 risks stored in the scope the listing returns
only 100 entries, so it is not "exactly the risks in that scope". -/
theorem get_risks_not_exact_counterexample :
    (get_risks db101 (some "c") user0).length = 100
    ∧ (db101.risks.filter (riskQuery (some "c") user0)).length = 101 := by
  have h101 : (db101.risks.filter (riskQuery (some "c") user0)).length = 101 := by decide
  constructor
  · have hperm := sortByGt_perm riskGt (db101.risks.filter (riskQuery (some "c") user0))
    show (List.take 100 _).length = 100
    rw [List.length_take, hperm.length_eq, h101]
    decide
  · exact h101

/-- C9: every listing endpoint truncates the store's response for its query to
the first 100 entries (`to_list(100)`): the result length is
`min 100 (number of matches)` — so at most 100 even when more are stored — and
every returned entry matches the query. -/
theorem listing_cap (db : DB) (u : UserR) (cid stf catf : Option String) :
    (get_user_clinics db u).length = min 100 (db.clinics.filter (clinicQuery u)).length
    ∧ (get_documents db cid stf catf u).length =
        min 100 (db.documents.filter (docQuery cid stf catf u)).length
    ∧ (get_risks db cid u).length = min 100 (db.risks.filter (riskQuery cid u)).length
    ∧ (get_user_clinics db u).length ≤ 100
    ∧ (get_documents db cid stf catf u).length ≤ 100
    ∧ (get_risks db cid u).length ≤ 100
    ∧ (∀ c ∈ get_user_clinics db u, c ∈ db.clinics.filter (clinicQuery u))
    ∧ (∀ d ∈ get_documents db cid stf catf u, d ∈ db.documents.filter (docQuery cid stf catf u))
    ∧ (∀ r ∈ get_risks db cid u, r ∈ db.risks.filter (riskQuery cid u)) := by
  have hpd := sortByGt_perm docGt (db.documents.filter (docQuery cid stf catf u))
  have hpr := sortByGt_perm riskGt (db.risks.filter (riskQuery cid u))
  have h1 : (get_user_clinics db u).length =
      min 100 (db.clinics.filter (clinicQuery u)).length := by
    show (List.take 100 _).length = _
    rw [List.length_take]
  have h2 : (get_documents db cid stf catf u).length =
      min 100 (db.documents.filter (docQuery cid stf catf u)).length := by
    show (List.take 100 _).length = _
    rw [List.length_take, hpd.length_eq]
  have h3 : (get_risks db cid u).length =
      min 100 (db.risks.filter (riskQuery cid u)).length := by
    show (List.take 100 _).length = _
    rw [List.length_take, hpr.length_eq]
  refine ⟨h1, h2, h3, ?_, ?_, ?_, ?_, ?_, ?_⟩
  · rw [h1]; exact Nat.min_le_left ..
  · rw [h2]; exact Nat.min_le_left ..
  · rw [h3]; exact Nat.min_le_left ..
  · intro c hc
    exact List.take_subset 100 _ hc
  · intro d hd
    exact hpd.mem_iff.mp (List.take_subset 100 _ hd)
  · intro r hr
    exact hpr.mem_iff.mp (List.take_subset 100 _ hr)

set_option maxRecDepth 4000 in
/-- Witness for C9: 101 matching risks are stored but 100 are returned, and a
returned entry does match the query. -/
theorem listing_cap_witness :
    (get_risks db101 (some "c") user0).length = 100
    ∧ risk0 ∈ db101.risks.filter (riskQuery (some "c") user0) := by
  have h := listing_cap db101 user0 (some "c") none none
  constructor
  · rw [h.2.2.1]
    decide
  · exact h.2.2.2.2.2.2.2.2 risk0 (by decide)

/-- C10: for a user whose clinic affiliation is unset, listing documents or
risks without an explicit clinic filter applies an empty query: the result
draws on every clinic's records (all of them when at most 100 are stored),
not an empty or tenant-restricted set. -/
theorem unscoped_listing (db : DB) (u : UserR) (h : u.clinic_id = none) :
    (db.documents.length ≤ 100 → (get_documents db none none none u).Perm db.documents)
    ∧ (db.risks.length ≤ 100 → (get_risks db none u).Perm db.risks)
    ∧ (get_documents db none none none u).length = min 100 db.documents.length
    ∧ (get_risks db none u).length = min 100 db.risks.length := by
  have hdq : db.documents.filter (docQuery none none none u) = db.documents :=
    List.filter_eq_self.mpr (fun d _ => by simp [docQuery, h])
  have hrq : db.risks.filter (riskQuery none u) = db.risks :=
    List.filter_eq_self.mpr (fun r _ => by simp [riskQuery, h])
  have hpd := sortByGt_perm docGt (db.documents.filter (docQuery none none none u))
  have hpr := sortByGt_perm riskGt (db.risks.filter (riskQuery none u))
  rw [hdq] at hpd
  rw [hrq] at hpr
  refine ⟨?_, ?_, ?_, ?_⟩
  · intro hlen
    show (List.take 100 _).Perm _
    rw [hdq, List.take_of_length_le (by rw [hpd.length_eq]; exact hlen)]
    exact hpd
  · intro hlen
    show (List.take 100 _).Perm _
    rw [hrq, List.take_of_length_le (by rw [hpr.length_eq]; exact hlen)]
    exact hpr
  · show (List.take 100 _).length = _
    rw [hdq, List.length_take, hpd.length_eq]
  · show (List.take 100 _).length = _
    rw [hrq, List.length_take, hpr.length_eq]

/-- Witness for C10: a user with no affiliation lists documents stored for two
different clinics and receives both. -/
theorem unscoped_listing_witness :
    (get_documents dbDocs2 none none none user0).Perm dbDocs2.documents
    ∧ doc1 ∈ get_documents dbDocs2 none none none user0 := by
  have h := (unscoped_listing dbDocs2 user0 rfl).1 (by decide)
  exact ⟨h, h.mem_iff.mpr (by decide)⟩

theorem persistEq_refl (d : DocR) : persistEq d d := by simp [persistEq]

theorem sigEq_refl (d : DocR) : sigEq d d := by simp [sigEq]

theorem getD_append_left (l m : List α) (i : Nat) (d : α) (h : i < l.length) :
    (l ++ m).getD i d = l.getD i d := by
  simp [List.getD, List.getElem?_append_left h]

theorem register_ok_documents (db : DB) (email fn ln role : String)
    (cid : Option String) (pw uid : String) (t : Time) (db' : DB) (r : UserR)
    (h : register db email fn ln role cid pw uid t = .ok (db', r)) :
    db'.documents = db.documents := by
  by_cases hc : (db.users.find? (fun u => u.email == email)).isSome
  · simp [register, hc] at h
  · simp only [register, if_neg hc, Except.ok.injEq, Prod.mk.injEq] at h
    obtain ⟨hdb, -⟩ := h
    subst hdb
    rfl

theorem generate_document_ok_documents (db : DB) (prompt cat jur cid : String)
    (u : UserR) (key : Option String) (ai : Except String String) (did : String)
    (t1 t2 : Time) (db' : DB) (r : DocR)
    (h : generate_document db prompt cat jur cid u key ai did t1 t2 = .ok (db', r)) :
    db'.documents = db.documents ++ [r] ∧ r.status = "draft" ∧
    r.signature_hash = none ∧ r.signed_by = none ∧ r.signed_at = none := by
  unfold generate_document at h
  cases hc : db.clinics.find? (fun c => c.id == cid) with
  | none => rw [hc] at h; simp at h
  | some _ =>
    rw [hc] at h
    cases hai : generate_ai_document key ai with
    | error e => rw [hai] at h; simp at h
    | ok ai_content =>
      rw [hai] at h
      simp only [Except.ok.injEq, Prod.mk.injEq] at h
      obtain ⟨hdb, hr⟩ := h
      subst hdb
      subst hr
      exact ⟨rfl, rfl, rfl, rfl, rfl⟩

theorem upload_document_ok_documents (db : DB) (size : Nat)
    (parsed : Except String String) (fn cat jur cid : String) (u : UserR)
    (did : String) (t1 t2 : Time) (db' : DB) (r : String)
    (h : upload_document db size parsed fn cat jur cid u did t1 t2 = .ok (db', r)) :
    ∃ d : DocR, db'.documents = db.documents ++ [d] ∧ d.status = "draft" ∧
      d.signature_hash = none ∧ d.signed_by = none ∧ d.signed_at = none := by
  by_cases hs : size > 20 * 1024 * 1024
  · simp [upload_document, hs] at h
  · cases hp : parsed with
    | error e => simp [upload_document, hs, hp] at h
    | ok txt =>
      simp only [upload_document, if_neg hs, hp, Except.ok.injEq, Prod.mk.injEq] at h
      obtain ⟨hdb, -⟩ := h
      subst hdb
      exact ⟨_, rfl, rfl, rfl, rfl, rfl⟩

theorem audit_ok_documents (db : DB) (did : String) (u : UserR)
    (key : Option String) (ai : Except String String) (aid : String) (t : Time)
    (db' : DB) (r : AuditRec)
    (h : audit_document_endpoint db did u key ai aid t = .ok (db', r)) :
    db'.documents = db.documents := by
  unfold audit_document_endpoint at h
  cases hc : db.documents.find? (fun d => d.id == did) with
  | none => rw [hc] at h; simp at h
  | some _ =>
    rw [hc] at h
    cases ha : audit_document key ai with
    | error e => rw [ha] at h; simp at h
    | ok pair =>
      rw [ha] at h
      simp only [Except.ok.injEq, Prod.mk.injEq] at h
      obtain ⟨hdb, -⟩ := h
      subst hdb
      rfl

theorem create_risk_ok_documents (db : DB) (title descr cat : String)
    (sev lik : Int) (mit : Option String) (cid : String) (u : UserR) (rid : String)
    (t1 t2 : Time) (db' : DB) (r : RiskR)
    (h : create_risk db title descr cat sev lik mit cid u rid t1 t2 = .ok (db', r)) :
    db'.documents = db.documents := by
  by_cases hv : (decide (sev < 1) || decide (5 < sev) || decide (lik < 1) ||
      decide (5 < lik)) = true
  · simp [create_risk, hv] at h
  · simp only [create_risk, Bool.not_eq_true] at hv ⊢
    simp only [create_risk, hv, Bool.false_eq_true, if_false,
      Except.ok.injEq, Prod.mk.injEq] at h
    obtain ⟨hdb, -⟩ := h
    subst hdb
    rfl

/-- Core of the setStatus frame: a successful status update leaves every stored
document's persistent fields untouched, and (for a non-published target) the
signature fields too. -/
theorem setStatus_frame (db : DB) (did st : String) (u : UserR) (t1 t2 t3 : Time)
    (db' : DB) (m : String)
    (hok : update_document_status db did st u t1 t2 t3 = .ok (db', m))
    (i : Nat) :
    (persistEq (db.documents.getD i dfltDoc) (db'.documents.getD i dfltDoc)
     ∧ (st ≠ "published" →
        sigEq (db.documents.getD i dfltDoc) (db'.documents.getD i dfltDoc))) := by
  by_cases h : st ∈ valid_statuses
  · simp only [update_document_status, if_pos h] at hok
    cases hfind : db.documents.find? (fun d => d.id == did) with
    | none => rw [hfind] at hok; simp at hok
    | some doc =>
      rw [hfind] at hok
      simp only [Except.ok.injEq, Prod.mk.injEq] at hok
      obtain ⟨hdb, -⟩ := hok
      subst hdb
      rcases updateFirst_getD (fun d => d.id == did)
          (statusUpdate st t1 (create_document_hash doc.content u.id t2) u.id t3)
          db.documents i dfltDoc with hcase | hcase
      · constructor
        · show persistEq _ ((updateFirst _ _ db.documents).getD i dfltDoc)
          rw [hcase]
          exact persistEq_refl _
        · intro _
          show sigEq _ ((updateFirst _ _ db.documents).getD i dfltDoc)
          rw [hcase]
          exact sigEq_refl _
      · constructor
        · show persistEq _ ((updateFirst _ _ db.documents).getD i dfltDoc)
          rw [hcase]
          exact statusUpdate_persistEq ..
        · intro hne
          show sigEq _ ((updateFirst _ _ db.documents).getD i dfltDoc)
          rw [hcase]
          exact statusUpdate_sigEq _ _ _ _ _ _ hne
  · simp only [update_document_status, if_neg h] at hok
    simp at hok

/-- C8: a successful `setStatus` changes nothing besides status, `updated_at`
and (only on publish) the signature fields; and no exposed operation modifies a
stored document's content, title, category, jurisdiction, tags or version
after creation. -/
theorem exposed_frame :
    (∀ (op : Op) (db : DB) (i : Nat), i < db.documents.length →
       persistEq (db.documents.getD i dfltDoc) ((applyOp db op).documents.getD i dfltDoc))
    ∧ (∀ (db : DB) (did st : String) (u : UserR) (t1 t2 t3 : Time) (db' : DB) (m : String),
       update_document_status db did st u t1 t2 t3 = .ok (db', m) →
       ∀ i : Nat,
         persistEq (db.documents.getD i dfltDoc) (db'.documents.getD i dfltDoc)
         ∧ (st ≠ "published" →
            sigEq (db.documents.getD i dfltDoc) (db'.documents.getD i dfltDoc))) := by
  constructor
  · intro op db i hi
    cases op with
    | opRegister email fn ln role cid pw uid t =>
      show persistEq _ ((match register db email fn ln role cid pw uid t with
        | .ok (db', _) => db' | .error _ => db).documents.getD i dfltDoc)
      cases hr : register db email fn ln role cid pw uid t with
      | error e => exact persistEq_refl _
      | ok pair =>
        obtain ⟨db', r⟩ := pair
        rw [register_ok_documents db email fn ln role cid pw uid t db' r hr]
        exact persistEq_refl _
    | opCreateClinic name abn addr st ph em u cid slug t =>
      exact persistEq_refl _
    | opGenerateDoc prompt cat jur cid u key ai did t1 t2 =>
      show persistEq _ ((match generate_document db prompt cat jur cid u key ai did t1 t2 with
        | .ok (db', _) => db' | .error _ => db).documents.getD i dfltDoc)
      cases hr : generate_document db prompt cat jur cid u key ai did t1 t2 with
      | error e => exact persistEq_refl _
      | ok pair =>
        obtain ⟨db', r⟩ := pair
        rw [(generate_document_ok_documents db prompt cat jur cid u key ai did t1 t2 db' r hr).1,
          getD_append_left _ _ _ _ hi]
        exact persistEq_refl _
    | opUploadDoc size parsed fn cat jur cid u did t1 t2 =>
      show persistEq _ ((match upload_document db size parsed fn cat jur cid u did t1 t2 with
        | .ok (db', _) => db' | .error _ => db).documents.getD i dfltDoc)
      cases hr : upload_document db size parsed fn cat jur cid u did t1 t2 with
      | error e => exact persistEq_refl _
      | ok pair =>
        obtain ⟨db', r⟩ := pair
        obtain ⟨d, hd, -⟩ := upload_document_ok_documents db size parsed fn cat jur cid u did t1 t2 db' r hr
        rw [hd, getD_append_left _ _ _ _ hi]
        exact persistEq_refl _
    | opSetStatus did st u t1 t2 t3 =>
      show persistEq _ ((match update_document_status db did st u t1 t2 t3 with
        | .ok (db', _) => db' | .error _ => db).documents.getD i dfltDoc)
      cases hr : update_document_status db did st u t1 t2 t3 with
      | error e => exact persistEq_refl _
      | ok pair =>
        obtain ⟨db', m⟩ := pair
        exact (setStatus_frame db did st u t1 t2 t3 db' m hr i).1
    | opAuditDoc did u key ai aid t =>
      show persistEq _ ((match audit_document_endpoint db did u key ai aid t with
        | .ok (db', _) => db' | .error _ => db).documents.getD i dfltDoc)
      cases hr : audit_document_endpoint db did u key ai aid t with
      | error e => exact persistEq_refl _
      | ok pair =>
        obtain ⟨db', r⟩ := pair
        rw [audit_ok_documents db did u key ai aid t db' r hr]
        exact persistEq_refl _
    | opCreateRisk title descr cat sev lik mit cid u rid t1 t2 =>
      show persistEq _ ((match create_risk db title descr cat sev lik mit cid u rid t1 t2 with
        | .ok (db', _) => db' | .error _ => db).documents.getD i dfltDoc)
      cases hr : create_risk db title descr cat sev lik mit cid u rid t1 t2 with
      | error e => exact persistEq_refl _
      | ok pair =>
        obtain ⟨db', r⟩ := pair
        rw [create_risk_ok_documents db title descr cat sev lik mit cid u rid t1 t2 db' r hr]
        exact persistEq_refl _
    | readOnly => exact persistEq_refl _
  · intro db did st u t1 t2 t3 db' m hok i
    exact setStatus_frame db did st u t1 t2 t3 db' m hok i

/-- Witness for C8: a concrete review transition on a one-document store leaves
the document's persistent and signature fields intact. -/
theorem exposed_frame_witness :
    persistEq (dbDoc.documents.getD 0 dfltDoc)
      ((applyOp dbDoc (Op.opSetStatus "d1" "review" user0 "T1" "T2" "T3")).documents.getD 0 dfltDoc)
    ∧ (persistEq (dbDoc.documents.getD 0 dfltDoc)
        (({ dbDoc with documents :=
            [statusUpdate "review" "T1" (create_document_hash "p" "u" "T2") "u" "T3" doc0] } : DB).documents.getD 0 dfltDoc)
       ∧ ("review" ≠ "published" →
          sigEq (dbDoc.documents.getD 0 dfltDoc)
            (({ dbDoc with documents :=
                [statusUpdate "review" "T1" (create_document_hash "p" "u" "T2") "u" "T3" doc0] } : DB).documents.getD 0 dfltDoc))) := by
  constructor
  · exact exposed_frame.1 (Op.opSetStatus "d1" "review" user0 "T1" "T2" "T3") dbDoc 0
      (by decide)
  · exact exposed_frame.2 dbDoc "d1" "review" user0 "T1" "T2" "T3" _ _ rfl 0

/-! ## Title-extraction lemmas (for C6) -/

theorem takeWhile_append_all (p : α → Bool) (l m : List α) (hl : ∀ c ∈ l, p c = true) :
    (l ++ m).takeWhile p = l ++ m.takeWhile p := by
  induction l with
  | nil => rfl
  | cons x xs ih =>
    rw [List.cons_append, List.takeWhile_cons_of_pos (hl x (List.mem_cons_self x xs)),
      ih (fun c hc => hl c (List.mem_cons_of_mem x hc)), List.cons_append]

theorem dropWhile_append_all (p : α → Bool) (l m : List α) (hl : ∀ c ∈ l, p c = true) :
    (l ++ m).dropWhile p = m.dropWhile p := by
  induction l with
  | nil => rfl
  | cons x xs ih =>
    rw [List.cons_append, List.dropWhile_cons_of_pos (hl x (List.mem_cons_self x xs)),
      ih (fun c hc => hl c (List.mem_cons_of_mem x hc))]

theorem dropWhile_eq_self_of_head (p : α → Bool) (l : List α)
    (h : ∀ c, l.head? = some c → p c = false) : l.dropWhile p = l := by
  cases l with
  | nil => rfl
  | cons x xs => exact List.dropWhile_cons_of_neg (by simp [h x rfl])

theorem drop_takeWhile_length (p : α → Bool) (s : List α) :
    s.drop ((s.takeWhile p).length) = s.dropWhile p := by
  induction s with
  | nil => rfl
  | cons x xs ih =>
    by_cases h : p x
    · rw [List.takeWhile_cons_of_pos h, List.dropWhile_cons_of_pos h, List.length_cons,
        List.drop_succ_cons]
      exact ih
    · rw [List.takeWhile_cons_of_neg (by simpa using h),
        List.dropWhile_cons_of_neg (by simpa using h)]
      rfl

theorem takeWhile_hash_nil {s : List Char} (h : s.head? ≠ some '#') :
    s.takeWhile isHash = [] := by
  cases s with
  | nil => rfl
  | cons c cs =>
    have hc : ¬ (c = '#') := fun hcc => h (by rw [hcc]; rfl)
    exact List.takeWhile_cons_of_neg (by simp [isHash, hc])

/-- If no line of `s` starts with `#`, the regex search fails (no position can
begin a `^#+...` match). -/
theorem searchLinesAux_none (fuel : Nat) : ∀ (s : List Char),
    firstHashAux fuel s = none → searchLinesAux fuel s = none := by
  induction fuel with
  | zero => intro s _; rfl
  | succ n ih =>
    intro s h
    simp only [firstHashAux] at h
    by_cases hh : s.head? = some '#'
    · rw [if_pos hh] at h
      simp at h
    · rw [if_neg hh] at h
      simp only [searchLinesAux, takeWhile_hash_nil hh, List.length_nil, tryHash]
      cases hd : s.dropWhile notNl with
      | nil => rfl
      | cons c rest =>
        rw [hd] at h
        exact ih rest h

/-- On a line starting with `#` whose text (after the hash run and leading
whitespace, within the line) is nonempty, the regex engine consumes the full
hash run, the full whitespace run, and captures exactly that text up to the
end of the line. -/
theorem tryHash_heading (s : List Char) (hs : s.head? = some '#')
    (ht : ((s.takeWhile notNl).dropWhile isHash).dropWhile isWs ≠ []) :
    tryHash s ((s.takeWhile isHash).length) =
      some (((s.takeWhile notNl).dropWhile isHash).dropWhile isWs) := by
  have hsplit : s.takeWhile isHash ++ s.dropWhile isHash = s :=
    List.takeWhile_append_dropWhile ..
  have hrunhash : ∀ c ∈ s.takeWhile isHash, isHash c = true :=
    fun _ hc => List.mem_takeWhile_imp hc
  obtain ⟨c0, cs, rfl⟩ : ∃ c0 cs, s = c0 :: cs := by
    cases s with
    | nil => simp at hs
    | cons a as => exact ⟨a, as, rfl⟩
  have hc0 : c0 = '#' := by simpa using hs
  subst hc0
  have hc0hash : isHash '#' = true := by decide
  have hrunlen : ((('#' : Char) :: cs).takeWhile isHash).length =
      ((cs.takeWhile isHash).length) + 1 := by
    rw [List.takeWhile_cons_of_pos hc0hash]
    rfl
  rw [hrunlen]
  simp only [tryHash]
  have hdrop : (('#' : Char) :: cs).drop ((cs.takeWhile isHash).length + 1) =
      (('#' : Char) :: cs).dropWhile isHash := by
    rw [← hrunlen]
    exact drop_takeWhile_length ..
  rw [hdrop]
  have hline : (('#' : Char) :: cs).takeWhile notNl =
      (('#' : Char) :: cs).takeWhile isHash ++
        ((('#' : Char) :: cs).dropWhile isHash).takeWhile notNl := by
    conv_lhs => rw [← hsplit]
    rw [takeWhile_append_all]
    intro c hc
    have hcc : c = '#' := by simpa [isHash] using hrunhash c hc
    simp [notNl, hcc]
  have hlineRest_head : ∀ c,
      (((('#' : Char) :: cs).dropWhile isHash).takeWhile notNl).head? = some c →
      isHash c = false := by
    intro c hc
    cases hr0 : (('#' : Char) :: cs).dropWhile isHash with
    | nil => rw [hr0] at hc; simp at hc
    | cons d ds =>
      rw [hr0] at hc
      by_cases hd : notNl d = true
      · rw [List.takeWhile_cons_of_pos hd] at hc
        have : d = c := by simpa using hc
        subst this
        exact dropWhile_head_false _ _ d ds hr0
      · rw [List.takeWhile_cons_of_neg (by simpa using hd)] at hc
        simp at hc
  have ht_eq : ((('#' : Char) :: cs).takeWhile notNl).dropWhile isHash =
      ((('#' : Char) :: cs).dropWhile isHash).takeWhile notNl := by
    rw [hline, dropWhile_append_all _ _ _ hrunhash,
      dropWhile_eq_self_of_head _ _ hlineRest_head]
  rw [ht_eq] at ht ⊢
  have hr0split :
      ((('#' : Char) :: cs).dropWhile isHash).takeWhile notNl ++
        ((('#' : Char) :: cs).dropWhile isHash).dropWhile notNl =
        (('#' : Char) :: cs).dropWhile isHash :=
    List.takeWhile_append_dropWhile ..
  have hdw : ((('#' : Char) :: cs).dropWhile isHash).dropWhile isWs =
      (((('#' : Char) :: cs).dropWhile isHash).takeWhile notNl).dropWhile isWs ++
        ((('#' : Char) :: cs).dropWhile isHash).dropWhile notNl := by
    conv_lhs => rw [← hr0split]
    exact dropWhile_append_of_ne_nil _ _ _ ht
  cases hdd : (((('#' : Char) :: cs).dropWhile isHash).takeWhile notNl).dropWhile isWs with
  | nil => exact absurd hdd ht
  | cons c1 cs1 =>
    have hmt : matchTailWS ((('#' : Char) :: cs).dropWhile isHash) = some (c1 :: cs1) := by
      simp only [matchTailWS, hdw, hdd, List.cons_append]
      congr 1
      rw [show c1 :: (cs1 ++ ((('#' : Char) :: cs).dropWhile isHash).dropWhile notNl) =
        (c1 :: cs1) ++ ((('#' : Char) :: cs).dropWhile isHash).dropWhile notNl from rfl]
      apply takeWhile_append_of_all
      · intro c hc
        have hmem : c ∈ ((('#' : Char) :: cs).dropWhile isHash).takeWhile notNl :=
          (List.dropWhile_sublist isWs).subset (hdd ▸ hc)
        exact List.mem_takeWhile_imp hmem
      · cases hsp : ((('#' : Char) :: cs).dropWhile isHash).dropWhile notNl with
        | nil => exact Or.inl rfl
        | cons e es =>
          refine Or.inr ⟨e, es, rfl, ?_⟩
          exact dropWhile_head_false _ _ e es hsp
    rw [hmt]

/-- If the first `#`-line's text is nonempty, the regex search returns it. -/
theorem searchLinesAux_heading (fuel : Nat) : ∀ (s t : List Char),
    firstHashAux fuel s = some t → t ≠ [] → searchLinesAux fuel s = some t := by
  induction fuel with
  | zero => intro s t h _; simp [firstHashAux] at h
  | succ n ih =>
    intro s t h ht
    by_cases hh : s.head? = some '#'
    · simp only [firstHashAux, if_pos hh] at h
      have hte := Option.some.inj h
      have htry := tryHash_heading s hh (by rw [hte]; exact ht)
      simp only [searchLinesAux, htry, hte]
    · simp only [firstHashAux, if_neg hh] at h
      simp only [searchLinesAux, takeWhile_hash_nil hh, List.length_nil, tryHash]
      cases hd : s.dropWhile notNl with
      | nil => rw [hd] at h; simp at h
      | cons c rest =>
        rw [hd] at h
        exact ih rest t h ht

/-- The shared cleanup is the identity on a marker-free title with a non-blank
head and the appended ellipsis. -/
theorem cleanTitle_append_ellipsis (l : List Char)
    (hnm : ∀ c ∈ l, isMarker c = false)
    (hhead : ∀ c, l.head? = some c → isWs c = false) :
    cleanTitle (l ++ ellipsis) = l ++ ellipsis := by
  unfold cleanTitle
  have hfil : (l ++ ellipsis).filter (fun c => !(isMarker c)) = l ++ ellipsis := by
    apply List.filter_eq_self.mpr
    intro c hc
    rcases List.mem_append.mp hc with h | h
    · simp [hnm c h]
    · fin_cases h <;> decide
  rw [hfil]
  unfold pyStrip
  have h1 : (l ++ ellipsis).dropWhile isWs = l ++ ellipsis := by
    apply dropWhile_eq_self_of_head
    intro c hc
    cases l with
    | nil =>
      simp only [List.nil_append, ellipsis] at hc
      have hcc : '.' = c := by simpa using hc
      subst hcc
      decide
    | cons a as =>
      have : a = c := by simpa using hc
      subst this
      exact hhead a (by rfl)
  rw [h1]
  have h2 : (l ++ ellipsis).reverse.dropWhile isWs = (l ++ ellipsis).reverse := by
    apply dropWhile_eq_self_of_head
    intro c hc
    have hrev : (l ++ ellipsis).reverse = '.' :: '.' :: '.' :: l.reverse := by
      simp [ellipsis]
    rw [hrev] at hc
    have hcc : '.' = c := by simpa using hc
    subst hcc
    decide
  rw [h2, List.reverse_reverse]

/-- C6 (amended): when the first `#`-line of the generated content has nonempty
text, the title is that heading text cleaned of markdown marker characters and
surrounding whitespace; when no line starts with `#` and the first
`'.'`-separated sentence exceeds 100 characters, the title is the first 100
characters plus an ellipsis with the same cleanup applied afterwards — exactly
100 characters plus the ellipsis only when those characters contain no marker
and the first is not whitespace. -/
theorem extract_title_spec (content : List Char) :
    (∀ t, firstHashLineText content = some t → t ≠ [] →
       extract_title content = cleanTitle (pyStrip t))
    ∧ (firstHashLineText content = none →
       100 < (content.takeWhile notDot).length →
       extract_title content =
         cleanTitle ((content.takeWhile notDot).take 100 ++ ellipsis))
    ∧ (firstHashLineText content = none →
       100 < (content.takeWhile notDot).length →
       (∀ c ∈ (content.takeWhile notDot).take 100, isMarker c = false) →
       (∀ c, ((content.takeWhile notDot).take 100).head? = some c → isWs c = false) →
       (extract_title content).length = 103) := by
  refine ⟨?_, ?_, ?_⟩
  · intro t h ht
    have hsearch : searchHeading content = some t :=
      searchLinesAux_heading (content.length + 1) content t h ht
    simp only [extract_title, hsearch]
  · intro hnone h100
    have hsearch : searchHeading content = none :=
      searchLinesAux_none (content.length + 1) content hnone
    simp only [extract_title, hsearch, if_pos h100]
  · intro hnone h100 hnm hhead
    have hsearch : searchHeading content = none :=
      searchLinesAux_none (content.length + 1) content hnone
    have heq : extract_title content =
        cleanTitle ((content.takeWhile notDot).take 100 ++ ellipsis) := by
      simp only [extract_title, hsearch, if_pos h100]
    rw [heq, cleanTitle_append_ellipsis _ hnm hhead, List.length_append,
      List.length_take]
    have hmin : min 100 (content.takeWhile notDot).length = 100 := by omega
    rw [hmin]
    rfl

set_option maxRecDepth 40000 in
/-- Witness for C6: the spec's own heading example, and a 150-character
marker-free sentence giving exactly 100 characters plus the ellipsis. -/
theorem extract_title_spec_witness :
    extract_title (String.toList "# Cold Chain Policy\nBody...") =
      String.toList "Cold Chain Policy"
    ∧ (extract_title (List.replicate 150 'A')).length = 103 := by
  constructor
  · rw [(extract_title_spec (String.toList "# Cold Chain Policy\nBody...")).1
      (String.toList "Cold Chain Policy") (by decide) (by decide)]
    decide
  · exact (extract_title_spec (List.replicate 150 'A')).2.2 (by decide) (by decide)
      (by decide) (by decide)

set_option maxRecDepth 40000 in
/-- C6 counterexample: (i) content `*` followed by 150 `a` has no heading line
and a first sentence longer than 100 characters, yet the extracted title has
102 characters, not 100 plus the ellipsis — the `*` falls inside the first 100
characters and is removed only after truncation; (ii) for content "#\nBody"
the first Markdown heading line is "#" with empty text, yet the extracted
title is "Body", taken from the following line. -/
theorem extract_title_counterexample :
    firstHashLineText ('*' :: List.replicate 150 'a') = none
    ∧ 100 < (('*' :: List.replicate 150 'a').takeWhile notDot).length
    ∧ (extract_title ('*' :: List.replicate 150 'a')).length = 102
    ∧ firstHashLineText (String.toList "#\nBody") = some []
    ∧ extract_title (String.toList "#\nBody") = String.toList "Body" := by
  refine ⟨by decide, by decide, by decide, by decide, by decide⟩

/-- C1 (amended): signature fields are null at creation, become populated
exactly by a successful publish, and are never cleared afterwards — a
`setStatus` write to a non-published target leaves them exactly as they were
(so they are populated if and only if the document has been published at least
once, not if and only if its current status is published). -/
theorem signature_lifecycle :
    (∀ (db : DB) (size : Nat) (parsed : Except String String)
       (fn cat jur cid : String) (u : UserR) (did : String) (t1 t2 : Time)
       (db' : DB) (r : String),
       upload_document db size parsed fn cat jur cid u did t1 t2 = .ok (db', r) →
       ∃ d : DocR, db'.documents = db.documents ++ [d] ∧ d.status = "draft" ∧
         d.signature_hash = none ∧ d.signed_by = none ∧ d.signed_at = none)
    ∧ (∀ (db : DB) (prompt cat jur cid : String) (u : UserR) (key : Option String)
       (ai : Except String String) (did : String) (t1 t2 : Time) (db' : DB) (r : DocR),
       generate_document db prompt cat jur cid u key ai did t1 t2 = .ok (db', r) →
       db'.documents = db.documents ++ [r] ∧ r.status = "draft" ∧
         r.signature_hash = none ∧ r.signed_by = none ∧ r.signed_at = none)
    ∧ (∀ (db : DB) (did : String) (u : UserR) (t1 t2 t3 : Time) (db' : DB) (m : String),
       update_document_status db did "published" u t1 t2 t3 = .ok (db', m) →
       ∃ d', db'.documents.find? (fun d => d.id == did) = some d' ∧
         d'.status = "published" ∧ d'.signature_hash.isSome = true ∧
         d'.signed_by.isSome = true ∧ d'.signed_at.isSome = true)
    ∧ (∀ (db : DB) (did st : String) (u : UserR) (t1 t2 t3 : Time) (db' : DB) (m : String),
       st ≠ "published" →
       update_document_status db did st u t1 t2 t3 = .ok (db', m) →
       ∀ i : Nat,
         sigEq (db.documents.getD i dfltDoc) (db'.documents.getD i dfltDoc)) := by
  refine ⟨?_, ?_, ?_, ?_⟩
  · intro db size parsed fn cat jur cid u did t1 t2 db' r h
    exact upload_document_ok_documents db size parsed fn cat jur cid u did t1 t2 db' r h
  · intro db prompt cat jur cid u key ai did t1 t2 db' r h
    exact generate_document_ok_documents db prompt cat jur cid u key ai did t1 t2 db' r h
  · intro db did u t1 t2 t3 db' m hok
    have hv : "published" ∈ valid_statuses := by decide
    simp only [update_document_status, if_pos hv] at hok
    cases hfind : db.documents.find? (fun d => d.id == did) with
    | none => rw [hfind] at hok; simp at hok
    | some doc =>
      rw [hfind] at hok
      simp only [Except.ok.injEq, Prod.mk.injEq] at hok
      obtain ⟨hdb, -⟩ := hok
      subst hdb
      refine ⟨statusUpdate "published" t1
        (create_document_hash doc.content u.id t2) u.id t3 doc, ?_, ?_, ?_, ?_, ?_⟩
      · exact find?_updateFirst _ _ _ doc (fun a ha => by rwa [statusUpdate_id]) hfind
      · exact statusUpdate_status ..
      · rw [(statusUpdate_sig_published t1 _ u.id t3 doc).1]; rfl
      · rw [(statusUpdate_sig_published t1 _ u.id t3 doc).2.1]; rfl
      · rw [(statusUpdate_sig_published t1 _ u.id t3 doc).2.2]; rfl
  · intro db did st u t1 t2 t3 db' m hne hok i
    exact (setStatus_frame db did st u t1 t2 t3 db' m hok i).2 hne

/-- Witness for C1: publishing the stored draft populates all three signature
fields of the matched document. -/
theorem signature_lifecycle_witness :
    ∃ d', ({ dbDoc with documents :=
        [statusUpdate "published" "T1" (create_document_hash "p" "u" "T2") "u" "T3" doc0] } : DB).documents.find?
        (fun d => d.id == "d1") = some d' ∧
      d'.status = "published" ∧ d'.signature_hash.isSome = true ∧
      d'.signed_by.isSome = true ∧ d'.signed_at.isSome = true :=
  signature_lifecycle.2.2.1 dbDoc "d1" user0 "T1" "T2" "T3" _ _ rfl

/-- C1 counterexample: starting from an empty store, upload (draft, no
signature), publish, then archive; the archived document still carries all
three signature fields — signature populated while status is not published. -/
theorem signature_lifecycle_counterexample :
    ((okState (upload_document emptyDB 1 (.ok "p") "f.txt" "policy" "national" "c"
        user0 "d1" "2025-01-01T00:00:00" "2025-01-01T00:00:00")).bind (fun db1 =>
      (okState (update_document_status db1 "d1" "published" user0 "T1" "T2" "T3")).bind
        (fun db2 =>
          (okState (update_document_status db2 "d1" "archived" user0 "T4" "T5" "T6")).map
            (fun db3 => db3.documents.map (fun d =>
              (d.status, d.signature_hash.isSome, d.signed_by.isSome, d.signed_at.isSome))))))
    = some [("archived", true, true, true)] := by
  rfl

set_option maxRecDepth 40000 in
/-- C2 (code_bug evaluation): publishing hashes the timestamp of the
`utcnow()` call at line 485 but stores the later `utcnow()` of line 489 as
`signed_at`; the stored digest equals the hash over the hash-time timestamp,
and whenever the clock advanced between the two calls, recomputing the hash
over (content, signer, stored signed_at) does not reproduce the stored
digest. -/
theorem signature_hash_mismatch :
    ((okState (upload_document emptyDB 1 (.ok "p") "f.txt" "policy" "national" "c"
        user0 "d1" "T0" "T0")).bind (fun db1 =>
      (okState (update_document_status db1 "d1" "published" user0
        "TU" "2025-01-01T00:00:00" "2025-01-01T00:00:00.000001")).map
        (fun db2 => db2.documents.map (fun d => (d.signature_hash, d.signed_at)))))
    = some [(some (create_document_hash "p" "u" "2025-01-01T00:00:00"),
             some "2025-01-01T00:00:00.000001")]
    ∧ create_document_hash "p" "u" "2025-01-01T00:00:00" ≠
        create_document_hash "p" "u" "2025-01-01T00:00:00.000001" := by
  constructor
  · rfl
  · decide

/-- C7 (code_bug evaluation): with no credential configured the generate
operation raises `HTTPException(500, "AI service not configured")` inside its
own `try`, so the blanket `except` replaces it with the same
`HTTPException(500, "Document generation failed")` produced for a downstream
AI failure — the two failure modes are identical to the caller, not distinct. -/
theorem generate_ai_document_indistinguishable :
    generate_ai_document none (.ok "any response") =
      .error (.httpExc 500 "Document generation failed")
    ∧ generate_ai_document (some "sk-key") (.error "connection error") =
      .error (.httpExc 500 "Document generation failed")
    ∧ generate_ai_document none (.ok "any response") =
      generate_ai_document (some "sk-key") (.error "connection error") :=
  ⟨rfl, rfl, rfl⟩

end Accredis
